import Mathlib

/-!
Shallow embedding of `@corvid-agent/throttle` (src/src/index.ts):
the throttle controller, the debounce controller and the sliding-window
rate limiter.  Timestamps and durations are `Int` (milliseconds); timer
callbacks are modelled as explicit events applied to an explicit state.
Executions of the wrapped function are recorded in an `execs` log so that
theorems can count and order them.
-/

namespace Throttle

/-- Configuration captured by `throttle(fn, wait, {leading, trailing})`.
`fn` is the wrapped function (arguments `α`, result `β`). -/
structure Cfg (α β : Type) where
  fn : α → β
  wait : Int
  leading : Bool := true
  trailing : Bool := true

/-- Mutable state closed over by the returned wrapper:
`lastExecTime`, `lastCallTime`, `timer` (the raw delay value handed to
`setTimeout`, present iff a trailing timer is scheduled), `lastArgs`,
`isPending`, plus an observation log of executions `(time, args)`. -/
structure State (α : Type) where
  lastExecTime : Int := 0
  lastCallTime : Option Int := none
  timer : Option Int := none
  lastArgs : Option α := none
  isPending : Bool := false
  execs : List (Int × α) := []
deriving Repr, DecidableEq

/-- JS `setTimeout` clamps a negative delay to `0`: the effective delay of
a scheduled timer is `max 0 raw`. -/
def effectiveDelay (raw : Int) : Int := max 0 raw

/-- The `execute(args)` helper of the throttle closure: records `lastExecTime`,
clears `isPending`, calls `fn` (logged) and returns its result. -/
def execute (cfg : Cfg α β) (now : Int) (args : α) (s : State α) : β × State α :=
  (cfg.fn args,
    { s with lastExecTime := now, isPending := false, execs := s.execs ++ [(now, args)] })

/-- Trailing-schedule block of `throttled` (lines 119-129): when `trailing`
is enabled and no timer is scheduled, set `isPending` and schedule a timer
with raw delay `wait - elapsed`. -/
def scheduleTrailing (cfg : Cfg α β) (elapsed : Int) (s : State α) : State α :=
  if cfg.trailing ∧ s.timer = none then
    { s with isPending := true, timer := some (cfg.wait - elapsed) }
  else s

/-- The body of the wrapper `throttled(...args)` at time `now`.  Returns
the synchronous result (`some` iff a leading execution ran) and the new
state. -/
def call (cfg : Cfg α β) (now : Int) (args : α) (s : State α) : Option β × State α :=
  let elapsed := now - s.lastExecTime
  let s1 := { s with lastArgs := some args, lastCallTime := some now }
  if elapsed ≥ cfg.wait then
    let s2 := { s1 with timer := none }
    if cfg.leading then
      let r := execute cfg now args s2
      (some r.1, r.2)
    else (none, scheduleTrailing cfg elapsed s2)
  else (none, scheduleTrailing cfg elapsed s1)

/-- The trailing timer callback firing at time `now` (a cancelled timer
never fires: the event is a no-op when no timer is scheduled). -/
def timerFire (cfg : Cfg α β) (now : Int) (s : State α) : State α :=
  match s.timer with
  | none => s
  | some _ =>
    let s1 := { s with timer := none }
    if cfg.trailing then
      match s1.lastArgs with
      | some a => { ((execute cfg now a s1).2) with lastArgs := none }
      | none => s1
    else s1

/-- The operation `throttled.cancel()`. -/
def cancel (s : State α) : State α :=
  { s with timer := none, lastArgs := none, isPending := false }

/-- The operation `throttled.flush()` at time `now`: only acts when a timer is scheduled
and `lastArgs` is present. -/
def flush (cfg : Cfg α β) (now : Int) (s : State α) : State α :=
  match s.timer, s.lastArgs with
  | some _, some a =>
    { ((execute cfg now a { s with timer := none }).2) with lastArgs := none }
  | _, _ => s

end Throttle

namespace Debounce

/-- Configuration captured by `debounce(fn, wait, {leading, maxWait})`.
The wrapped `fn` returns nothing observable here; its invocations are
recorded in the state's `execs` log. -/
structure Cfg where
  wait : Int
  leading : Bool := false
  maxWait : Option Int := none

/-- Mutable state: the quiet-period `timer` and the ceiling `maxTimer`
(modelled as active-or-not), `lastArgs`, `isPending`, `leadingCalled`,
plus the log of arguments `fn` was invoked with, in invocation order. -/
structure State (α : Type) where
  timer : Bool := false
  maxTimer : Bool := false
  lastArgs : Option α := none
  isPending : Bool := false
  leadingCalled : Bool := false
  execs : List α := []
deriving Repr, DecidableEq

/-- The `execute()` helper of the debounce closure: invoke `fn` with `lastArgs`
when present and clear it; clear `isPending`, `leadingCalled` and the
ceiling timer. -/
def execute (s : State α) : State α :=
  let s1 :=
    match s.lastArgs with
    | some a => { s with execs := s.execs ++ [a], lastArgs := none }
    | none => s
  { s1 with isPending := false, leadingCalled := false, maxTimer := false }

/-- The body of the wrapper `debounced(...args)`: store args, set pending,
fire the leading edge when enabled and not yet fired this burst, reset the
quiet-period timer, and start the ceiling timer when `maxWait` is
configured and none is running. -/
def call (cfg : Cfg) (args : α) (s : State α) : State α :=
  let s1 := { s with lastArgs := some args, isPending := true }
  let s2 :=
    if cfg.leading ∧ s1.leadingCalled = false then
      { s1 with leadingCalled := true, execs := s1.execs ++ [args] }
    else s1
  let s3 := { s2 with timer := true }
  if (cfg.maxWait ≠ none) ∧ s3.maxTimer = false then
    { s3 with maxTimer := true }
  else s3

/-- The quiet-period timer callback (a cancelled timer never fires). -/
def quietFire (cfg : Cfg) (s : State α) : State α :=
  if s.timer then
    let s1 := { s with timer := false }
    if cfg.leading = false ∨ s1.lastArgs.isSome then execute s1
    else { s1 with isPending := false, leadingCalled := false }
  else s

/-- The `maxWait` ceiling timer callback: cancel the quiet-period timer
and force the execution path. -/
def maxFire (s : State α) : State α :=
  if s.maxTimer then
    execute { s with maxTimer := false, timer := false }
  else s

/-- The operation `debounced.cancel()`. -/
def cancel (s : State α) : State α :=
  { s with timer := false, maxTimer := false, lastArgs := none,
           isPending := false, leadingCalled := false }

/-- The operation `debounced.flush()`: cancel the quiet-period timer and run
`execute()` unconditionally. -/
def flush (s : State α) : State α :=
  execute { s with timer := false }

/-- Fold a burst of plain calls over the state (used to speak about every
state reached while calls keep arriving). -/
def callBurst (cfg : Cfg) (as : List α) (s : State α) : State α :=
  as.foldl (fun t a => call cfg a t) s

end Debounce

namespace RateLimiter

/-- Overflow strategy of the rate limiter. -/
inductive Strategy
  | drop
  | queue
  | error
deriving Repr, DecidableEq

/-- Read-only fields set by the constructor (no validation of any kind is
performed there). -/
structure Cfg where
  limit : Int
  window : Int
  strategy : Strategy := .drop
deriving Repr, DecidableEq

/-- Mutable state: acquisition `timestamps` (oldest-first), the FIFO
`queue` of waiter identities, the drain timer flag, plus observation
logs: `resolvedIds` (waiters completed with success, in completion order)
and `rejectedIds` (waiters completed with failure — no code path ever
invokes a stored `reject`, which the theorems make explicit). -/
structure State where
  timestamps : List Int := []
  queue : List Nat := []
  drainTimer : Bool := false
  resolvedIds : List Nat := []
  rejectedIds : List Nat := []
deriving Repr, DecidableEq

/-- The internal `cleanup()`: drop timestamps at or before `now - window`. -/
def cleanup (cfg : Cfg) (now : Int) (s : State) : State :=
  { s with timestamps := s.timestamps.filter (fun t => now - cfg.window < t) }

/-- The query `remaining()`: slots left in the current window. -/
def remaining (cfg : Cfg) (now : Int) (s : State) : Int :=
  max 0 (cfg.limit - ((cleanup cfg now s).timestamps.length : Int))

/-- The operation `tryAcquire()`: after cleanup, append `now` and succeed when under
the limit. -/
def tryAcquire (cfg : Cfg) (now : Int) (s : State) : Bool × State :=
  let s1 := cleanup cfg now s
  if (s1.timestamps.length : Int) < cfg.limit then
    (true, { s1 with timestamps := s1.timestamps ++ [now] })
  else (false, s1)

/-- Outcome of `acquire()` as seen by the caller: resolved `true`,
resolved `false` (drop), rejected with `RateLimitError(limit, window)`,
or still pending as a queued waiter. -/
inductive AcquireResult
  | granted
  | dropped
  | errored (limit : Int) (window : Int)
  | queued (id : Nat)
deriving Repr, DecidableEq

/-- The internal `scheduleDrain()` with the delay abstracted away: at most one drain
timer is outstanding. -/
def scheduleDrain (s : State) : State :=
  if s.drainTimer then s else { s with drainTimer := true }

/-- The operation `acquire()` called at time `now` by a caller identified as `id`
(identities only serve to track queued waiters). -/
def acquire (cfg : Cfg) (now : Int) (id : Nat) (s : State) : AcquireResult × State :=
  match tryAcquire cfg now s with
  | (true, s1) => (.granted, s1)
  | (false, s1) =>
    match cfg.strategy with
    | .error => (.errored cfg.limit cfg.window, s1)
    | .drop => (.dropped, s1)
    | .queue => (.queued id, scheduleDrain { s1 with queue := s1.queue ++ [id] })

/-- The `while (queue.length > 0 && tryAcquire())` loop of
`drainQueue()`: grant (shift and resolve) the oldest waiter while both
conditions hold. -/
def drainLoop (cfg : Cfg) (now : Int) (s : State) : State :=
  if h : s.queue = [] then s
  else
    let r := tryAcquire cfg now s
    if r.1 then
      drainLoop cfg now
        { r.2 with queue := r.2.queue.tail,
                   resolvedIds := r.2.resolvedIds ++ [r.2.queue.headD 0] }
    else r.2
termination_by s.queue.length
decreasing_by
  have hq : ((tryAcquire cfg now s).2).queue = s.queue := by
    unfold tryAcquire cleanup
    dsimp only
    split <;> rfl
  simp only [hq, List.length_tail]
  exact Nat.sub_lt (List.length_pos.mpr h) Nat.one_pos

/-- The internal `drainQueue()`: run the loop, then reschedule when waiters remain. -/
def drainQueue (cfg : Cfg) (now : Int) (s : State) : State :=
  let s1 := drainLoop cfg now s
  if s1.queue.length > 0 then scheduleDrain s1 else s1

/-- The drain timer callback firing at time `now`. -/
def drainFire (cfg : Cfg) (now : Int) (s : State) : State :=
  if s.drainTimer then drainQueue cfg now { s with drainTimer := false }
  else s

/-- The operation `reset()`: wipe timestamps, resolve every queued waiter in queue
order with no capacity check, clear the queue and cancel the drain. -/
def reset (s : State) : State :=
  { s with timestamps := [], resolvedIds := s.resolvedIds ++ s.queue,
           queue := [], drainTimer := false }

/-- The constructor `new RateLimiter(options)`: plain field assignment,
no validation, fresh empty state.  Being a total function, it cannot
raise. -/
def new (limit window : Int) (strategy : Strategy) : Cfg × State :=
  ({ limit := limit, window := window, strategy := strategy }, {})

/-- Test driver: a sequence of consecutive `tryAcquire()` calls at the
given times, collecting the returned booleans. -/
def tryMany (cfg : Cfg) (ts : List Int) (s : State) : List Bool × State :=
  match ts with
  | [] => ([], s)
  | t :: rest =>
    let r := tryAcquire cfg t s
    let r2 := tryMany cfg rest r.2
    (r.1 :: r2.1, r2.2)

end RateLimiter

namespace RateLimiter

theorem tryAcquire_queue (cfg : Cfg) (now : Int) (s : State) :
    ((tryAcquire cfg now s).2).queue = s.queue := by
  unfold tryAcquire cleanup
  dsimp only
  split <;> rfl

theorem tryAcquire_resolvedIds (cfg : Cfg) (now : Int) (s : State) :
    ((tryAcquire cfg now s).2).resolvedIds = s.resolvedIds := by
  unfold tryAcquire cleanup
  dsimp only
  split <;> rfl

theorem tryAcquire_rejectedIds (cfg : Cfg) (now : Int) (s : State) :
    ((tryAcquire cfg now s).2).rejectedIds = s.rejectedIds := by
  unfold tryAcquire cleanup
  dsimp only
  split <;> rfl

theorem scheduleDrain_rejectedIds (s : State) :
    (scheduleDrain s).rejectedIds = s.rejectedIds := by
  unfold scheduleDrain
  split <;> rfl

theorem tryAcquire_drainLoop_fields (cfg : Cfg) (now : Int) (s : State) :
    ((tryAcquire cfg now s).2).queue = s.queue ∧
    ((tryAcquire cfg now s).2).resolvedIds = s.resolvedIds ∧
    ((tryAcquire cfg now s).2).rejectedIds = s.rejectedIds ∧
    ((tryAcquire cfg now s).2).drainTimer = s.drainTimer := by
  unfold tryAcquire cleanup
  dsimp only
  split <;> exact ⟨rfl, rfl, rfl, rfl⟩

/-- Helper: the drain loop grants some first part of the queue, in queue
order, and touches neither the rest of the queue order nor the rejection
log: for some `k`, `resolvedIds` grows by exactly `queue.take k` and the
queue becomes `queue.drop k`. -/
theorem drainLoop_take_drop (cfg : Cfg) (now : Int) :
    ∀ (n : Nat) (s : State), s.queue.length ≤ n →
      ∃ k, (drainLoop cfg now s).resolvedIds = s.resolvedIds ++ s.queue.take k ∧
           (drainLoop cfg now s).queue = s.queue.drop k ∧
           (drainLoop cfg now s).rejectedIds = s.rejectedIds := by
  intro n
  induction n with
  | zero =>
    intro s hs
    have hq : s.queue = [] := List.eq_nil_of_length_eq_zero (Nat.le_zero.mp hs)
    rw [drainLoop]
    simp [hq]
  | succ n ih =>
    intro s hs
    rw [drainLoop]
    by_cases hq : s.queue = []
    · simp [hq]
    · rw [dif_neg hq]
      obtain ⟨hd, tl, hcons⟩ := List.exists_cons_of_ne_nil hq
      cases htry : (tryAcquire cfg now s).1 with
      | false =>
        simp only [htry, if_neg]
        refine ⟨0, ?_, ?_, ?_⟩ <;>
          simp [tryAcquire_queue, tryAcquire_resolvedIds, tryAcquire_rejectedIds]
      | true =>
        simp only [htry, if_pos]
        set s2 : State :=
          { (tryAcquire cfg now s).2 with
            queue := ((tryAcquire cfg now s).2).queue.tail,
            resolvedIds := ((tryAcquire cfg now s).2).resolvedIds ++
              [((tryAcquire cfg now s).2).queue.headD 0] } with hs2
        have hq2 : s2.queue = tl := by
          simp [hs2, tryAcquire_queue, hcons]
        have hr2 : s2.resolvedIds = s.resolvedIds ++ [hd] := by
          simp [hs2, tryAcquire_queue, tryAcquire_resolvedIds, hcons]
        have hrej2 : s2.rejectedIds = s.rejectedIds := by
          simp [hs2, tryAcquire_rejectedIds]
        have hlen : s2.queue.length ≤ n := by
          rw [hq2]
          have := hs
          rw [hcons] at this
          simpa using Nat.lt_succ_iff.mp (Nat.lt_of_lt_of_le (Nat.lt_succ_self _) this)
        obtain ⟨k, h1, h2, h3⟩ := ih s2 hlen
        refine ⟨k + 1, ?_, ?_, ?_⟩
        · rw [h1, hr2, hq2, hcons]
          simp
        · rw [h2, hq2, hcons]
          rfl
        · rw [h3, hrej2]

/-- Helper: while every pending call time lies within `window` of every
timestamp already present and of every later call, and the total count
stays within `limit`, every `tryAcquire` of the sequence succeeds and the
call times are appended in order. -/
theorem tryMany_all_true (cfg : Cfg) :
    ∀ (us : List Int) (s : State),
      ((s.timestamps.length : Int) + us.length ≤ cfg.limit) →
      (∀ x ∈ s.timestamps ++ us, ∀ u ∈ us, u - cfg.window < x) →
      (tryMany cfg us s).1 = List.replicate us.length true ∧
      (tryMany cfg us s).2 = { s with timestamps := s.timestamps ++ us } := by
  intro us
  induction us with
  | nil =>
    intro s _ _
    refine ⟨rfl, ?_⟩
    unfold tryMany
    rw [List.append_nil]
  | cons u rest ih =>
    intro s hlen hwin
    have hkeep : s.timestamps.filter (fun t => decide (u - cfg.window < t))
        = s.timestamps := by
      rw [List.filter_eq_self]
      intro x hx
      exact decide_eq_true (hwin x (List.mem_append_left _ hx) u
        (List.mem_cons_self u rest))
    have hlt : ((s.timestamps.length : Int) < cfg.limit) := by
      have hc : (rest.length : Int) + 1 = ((u :: rest).length : Int) := by
        simp
      omega
    have hstep : tryAcquire cfg u s =
        (true, { s with timestamps := s.timestamps ++ [u] }) := by
      unfold tryAcquire cleanup
      dsimp only
      rw [hkeep, if_pos hlt]
    have hlen2 : ((({ s with timestamps := s.timestamps ++ [u] }
          : State).timestamps.length : Int) + rest.length ≤ cfg.limit) := by
      have hc : ((s.timestamps ++ [u]).length : Int)
          = (s.timestamps.length : Int) + 1 := by
        simp
      have hc2 : ((u :: rest).length : Int) = (rest.length : Int) + 1 := by
        simp
      dsimp only
      omega
    have hwin2 : ∀ x ∈ ({ s with timestamps := s.timestamps ++ [u] }
          : State).timestamps ++ rest, ∀ u2 ∈ rest, u2 - cfg.window < x := by
      intro x hx u2 hu2
      refine hwin x ?_ u2 (List.mem_cons_of_mem u hu2)
      dsimp only at hx
      rw [List.append_assoc, List.singleton_append] at hx
      exact hx
    obtain ⟨ih1, ih2⟩ := ih { s with timestamps := s.timestamps ++ [u] } hlen2 hwin2
    unfold tryMany
    dsimp only
    rw [hstep]
    dsimp only
    refine ⟨?_, ?_⟩
    · rw [ih1]
      rfl
    · rw [ih2]
      dsimp only
      rw [List.append_assoc, List.singleton_append]

/-- Helper: `drainQueue` (loop plus conditional reschedule) preserves the
rejection log. -/
theorem drainQueue_rejectedIds (cfg : Cfg) (now : Int) (s : State) :
    (drainQueue cfg now s).rejectedIds = s.rejectedIds := by
  obtain ⟨k, _, _, h3⟩ := drainLoop_take_drop cfg now s.queue.length s le_rfl
  unfold drainQueue
  dsimp only
  split
  · rw [scheduleDrain_rejectedIds, h3]
  · exact h3

end RateLimiter

/-- C4: when `tryAcquire()` fails, `acquire()` rejects with a
`RateLimitError` carrying the configured `limit` and `window` iff the
strategy is `error`; it resolves `false` iff the strategy is `drop`; and
under `queue` it appends a waiter (resolving neither way yet).  No code
path ever invokes a waiter's `reject`: every operation leaves the
rejection log untouched, so a queued waiter never fails. -/
theorem rateLimiter_acquire_overflow (cfg : RateLimiter.Cfg) (now : Int)
    (id : Nat) (s : RateLimiter.State)
    (hfail : (RateLimiter.tryAcquire cfg now s).1 = false) :
    ((RateLimiter.acquire cfg now id s).1 =
        .errored cfg.limit cfg.window ↔ cfg.strategy = .error) ∧
    ((RateLimiter.acquire cfg now id s).1 = .dropped ↔ cfg.strategy = .drop) ∧
    (cfg.strategy = .queue →
      (RateLimiter.acquire cfg now id s).1 = .queued id ∧
      ((RateLimiter.acquire cfg now id s).2).queue = s.queue ++ [id]) ∧
    (∀ (cfg2 : RateLimiter.Cfg) (now2 : Int) (id2 : Nat) (s2 : RateLimiter.State),
      ((RateLimiter.acquire cfg2 now2 id2 s2).2).rejectedIds = s2.rejectedIds ∧
      (RateLimiter.drainFire cfg2 now2 s2).rejectedIds = s2.rejectedIds ∧
      (RateLimiter.reset s2).rejectedIds = s2.rejectedIds) := by
  have hsplit : RateLimiter.tryAcquire cfg now s =
      (false, (RateLimiter.tryAcquire cfg now s).2) :=
    Prod.ext hfail rfl
  have hacq : ∀ (cfg2 : RateLimiter.Cfg) (now2 : Int) (id2 : Nat)
      (s2 : RateLimiter.State),
      ((RateLimiter.acquire cfg2 now2 id2 s2).2).rejectedIds = s2.rejectedIds := by
    intro cfg2 now2 id2 s2
    unfold RateLimiter.acquire
    rcases h2 : RateLimiter.tryAcquire cfg2 now2 s2 with ⟨b, s3⟩
    have hs3 : s3.rejectedIds = s2.rejectedIds := by
      have := RateLimiter.tryAcquire_rejectedIds cfg2 now2 s2
      rw [h2] at this
      exact this
    cases b
    · cases cfg2.strategy <;>
        simp [RateLimiter.scheduleDrain_rejectedIds, hs3]
    · exact hs3
  refine ⟨?_, ?_, ?_, ?_⟩
  · unfold RateLimiter.acquire
    rw [hsplit]
    cases hst : cfg.strategy <;> simp
  · unfold RateLimiter.acquire
    rw [hsplit]
    cases hst : cfg.strategy <;> simp
  · intro hst
    unfold RateLimiter.acquire
    rw [hsplit, hst]
    refine ⟨rfl, ?_⟩
    simp only [RateLimiter.scheduleDrain, RateLimiter.tryAcquire_queue]
    split <;> rfl
  · intro cfg2 now2 id2 s2
    refine ⟨hacq cfg2 now2 id2 s2, ?_, rfl⟩
    unfold RateLimiter.drainFire
    split
    · exact RateLimiter.drainQueue_rejectedIds cfg2 now2 _
    · rfl

/-- Witness for `rateLimiter_acquire_overflow`: `limit = 1`,
`window = 1000`, strategy `error`, one slot already consumed at time `0`,
second `acquire` at time `1` rejects with `RateLimitError(1, 1000)`. -/
theorem rateLimiter_acquire_overflow_witness :
    ((RateLimiter.tryAcquire
        ({ limit := 1, window := 1000, strategy := .error } : RateLimiter.Cfg)
        1 { timestamps := [0] }).1 = false) ∧
    (RateLimiter.acquire
        ({ limit := 1, window := 1000, strategy := .error } : RateLimiter.Cfg)
        1 7 { timestamps := [0] }).1 = .errored 1 1000 :=
  ⟨by decide,
    ((rateLimiter_acquire_overflow
      ({ limit := 1, window := 1000, strategy := .error } : RateLimiter.Cfg)
      1 7 { timestamps := [0] } (by decide)).1).mpr rfl⟩

/-- C5: under the `queue` strategy a failed `acquire()` appends its waiter
after every existing waiter and grants nothing at enqueue time
(`resolvedIds` unchanged); waiters are granted only by the drain loop,
which grants exactly a first segment of the queue in queue order
(`take k` appended to the grant log, `drop k` remaining). -/
theorem rateLimiter_queue_fifo (cfg : RateLimiter.Cfg) (now : Int)
    (id : Nat) (s : RateLimiter.State)
    (hq : cfg.strategy = .queue)
    (hfail : (RateLimiter.tryAcquire cfg now s).1 = false) :
    ((RateLimiter.acquire cfg now id s).1 = .queued id ∧
     ((RateLimiter.acquire cfg now id s).2).queue = s.queue ++ [id] ∧
     ((RateLimiter.acquire cfg now id s).2).resolvedIds = s.resolvedIds) ∧
    (∀ s2 : RateLimiter.State, ∃ k,
      (RateLimiter.drainLoop cfg now s2).resolvedIds =
        s2.resolvedIds ++ s2.queue.take k ∧
      (RateLimiter.drainLoop cfg now s2).queue = s2.queue.drop k) := by
  have hsplit : RateLimiter.tryAcquire cfg now s =
      (false, (RateLimiter.tryAcquire cfg now s).2) :=
    Prod.ext hfail rfl
  constructor
  · unfold RateLimiter.acquire
    rw [hsplit, hq]
    refine ⟨rfl, ?_, ?_⟩
    · simp only [RateLimiter.scheduleDrain, RateLimiter.tryAcquire_queue]
      split <;> rfl
    · simp only [RateLimiter.scheduleDrain, RateLimiter.tryAcquire_resolvedIds]
      split <;> rfl
  · intro s2
    obtain ⟨k, h1, h2, _⟩ :=
      RateLimiter.drainLoop_take_drop cfg now s2.queue.length s2 le_rfl
    exact ⟨k, h1, h2⟩

/-- Witness for `rateLimiter_queue_fifo`: `limit = 1`, strategy `queue`,
slot consumed at time `0`; `acquire` of waiter `7` at time `1` with
waiter `3` already queued appends `7` after `3`. -/
theorem rateLimiter_queue_fifo_witness :
    (({ limit := 1, window := 1000, strategy := .queue }
        : RateLimiter.Cfg).strategy = .queue) ∧
    ((RateLimiter.tryAcquire
        ({ limit := 1, window := 1000, strategy := .queue } : RateLimiter.Cfg)
        1 { timestamps := [0], queue := [3] }).1 = false) ∧
    ((RateLimiter.acquire
        ({ limit := 1, window := 1000, strategy := .queue } : RateLimiter.Cfg)
        1 7 { timestamps := [0], queue := [3] }).2).queue = [3, 7] :=
  ⟨rfl, by decide,
    ((rateLimiter_queue_fifo
      ({ limit := 1, window := 1000, strategy := .queue } : RateLimiter.Cfg)
      1 7 { timestamps := [0], queue := [3] } rfl (by decide)).1).2.1⟩

/-- C6: `reset()` empties the timestamps (so `remaining()` reports the
full `limit`, for any non-negative configured limit), grants every queued
waiter in order with no capacity check (for every state, however
over-subscribed), empties the queue, and cancels the drain timer. -/
theorem rateLimiter_reset_spec (cfg : RateLimiter.Cfg) (now : Int)
    (s : RateLimiter.State) (hl : 0 ≤ cfg.limit) :
    (RateLimiter.reset s).timestamps = [] ∧
    RateLimiter.remaining cfg now (RateLimiter.reset s) = cfg.limit ∧
    (RateLimiter.reset s).resolvedIds = s.resolvedIds ++ s.queue ∧
    (RateLimiter.reset s).queue = [] ∧
    (RateLimiter.reset s).drainTimer = false := by
  refine ⟨rfl, ?_, rfl, rfl, rfl⟩
  unfold RateLimiter.remaining RateLimiter.cleanup RateLimiter.reset
  simp [max_eq_right hl]

/-- Witness for `rateLimiter_reset_spec`: `limit = 2`, a full window and
two queued waiters at reset time. -/
theorem rateLimiter_reset_spec_witness :
    ((0 : Int) ≤ ({ limit := 2, window := 50 } : RateLimiter.Cfg).limit) ∧
    RateLimiter.remaining ({ limit := 2, window := 50 } : RateLimiter.Cfg) 20
      (RateLimiter.reset { timestamps := [0, 10], queue := [4, 9] }) = 2 ∧
    (RateLimiter.reset
      ({ timestamps := [0, 10], queue := [4, 9] } : RateLimiter.State)).resolvedIds
      = [4, 9] :=
  ⟨by decide,
    (rateLimiter_reset_spec ({ limit := 2, window := 50 } : RateLimiter.Cfg) 20
      { timestamps := [0, 10], queue := [4, 9] } (by decide)).2.1,
    (rateLimiter_reset_spec ({ limit := 2, window := 50 } : RateLimiter.Cfg) 20
      { timestamps := [0, 10], queue := [4, 9] } (by decide)).2.2.1⟩

/-- C9: the constructor validates nothing (it is a total function that
copies the options into the read-only fields and starts from the empty
state); with `limit ≤ 0` every `tryAcquire()` returns `false` and
`remaining()` always returns `0`. -/
theorem rateLimiter_nonpositive_limit (limit window : Int)
    (strategy : RateLimiter.Strategy) (hl : limit ≤ 0)
    (now : Int) (s : RateLimiter.State) :
    RateLimiter.new limit window strategy =
      ({ limit := limit, window := window, strategy := strategy }, {}) ∧
    (RateLimiter.tryAcquire (RateLimiter.new limit window strategy).1 now s).1
      = false ∧
    RateLimiter.remaining (RateLimiter.new limit window strategy).1 now s = 0 := by
  refine ⟨rfl, ?_, ?_⟩
  · unfold RateLimiter.tryAcquire RateLimiter.new
    rw [if_neg]
    dsimp only
    omega
  · unfold RateLimiter.remaining RateLimiter.new
    dsimp only
    rw [max_eq_left]
    omega

/-- Witness for `rateLimiter_nonpositive_limit`: `limit = 0`,
`window = 100`, a `tryAcquire` at time `5` on a state already holding a
stale timestamp. -/
theorem rateLimiter_nonpositive_limit_witness :
    ((0 : Int) ≤ 0) ∧
    (RateLimiter.tryAcquire (RateLimiter.new 0 100 .drop).1 5
      { timestamps := [2] }).1 = false ∧
    RateLimiter.remaining (RateLimiter.new 0 100 .drop).1 5
      { timestamps := [2] } = 0 :=
  ⟨le_refl 0,
    (rateLimiter_nonpositive_limit 0 100 .drop (by decide) 5
      { timestamps := [2] }).2.1,
    (rateLimiter_nonpositive_limit 0 100 .drop (by decide) 5
      { timestamps := [2] }).2.2⟩

/-- C3: from a freshly constructed limiter with positive `limit = L`, a
sequence of `L` consecutive `tryAcquire()` calls within one window (all
call times within `window` of each other, nondecreasing) all return
`true`; the `(L+1)`th call still within the window returns `false`; and
a further `tryAcquire()` succeeds again once the oldest timestamp has
left the rolling window. -/
theorem rateLimiter_window_rollover (cfg : RateLimiter.Cfg) (L : Nat)
    (us : List Int) (v v2 x0 : Int)
    (hL : 0 < L) (hlim : cfg.limit = (L : Int)) (hlen : us.length = L)
    (hsort : us.Chain' (fun a b => a ≤ b))
    (hwin : ∀ x ∈ us, ∀ u ∈ us, u - cfg.window < x)
    (hv : ∀ x ∈ us, v - cfg.window < x)
    (hx0 : us.head? = some x0)
    (hv2 : x0 ≤ v2 - cfg.window) :
    (RateLimiter.tryMany cfg us {}).1 = List.replicate L true ∧
    (RateLimiter.tryAcquire cfg v (RateLimiter.tryMany cfg us {}).2).1 = false ∧
    (RateLimiter.tryAcquire cfg v2
      (RateLimiter.tryAcquire cfg v
        (RateLimiter.tryMany cfg us {}).2).2).1 = true := by
  obtain ⟨h1, h2⟩ := RateLimiter.tryMany_all_true cfg us {}
    (by simp [hlim, hlen]) (by simpa using hwin)
  have hkeepv : us.filter (fun t => decide (v - cfg.window < t)) = us := by
    rw [List.filter_eq_self]
    intro x hx
    exact decide_eq_true (hv x hx)
  have hnotlt : ¬ ((us.length : Int) < cfg.limit) := by
    rw [hlim, hlen]
    omega
  have hstep2 : RateLimiter.tryAcquire cfg v (RateLimiter.tryMany cfg us {}).2 =
      (false, { timestamps := us }) := by
    rw [h2]
    unfold RateLimiter.tryAcquire RateLimiter.cleanup
    dsimp only
    rw [List.nil_append, hkeepv, if_neg hnotlt]
  refine ⟨by rw [h1, hlen], by rw [hstep2], ?_⟩
  rw [hstep2]
  rcases us with _ | ⟨a, tl⟩
  · simp at hx0
  have ha : a = x0 := by simpa using hx0
  subst ha
  have hx0f : (decide (v2 - cfg.window < a)) = false :=
    decide_eq_false (not_lt.mpr hv2)
  have hfc : (a :: tl).filter (fun t => decide (v2 - cfg.window < t))
      = tl.filter (fun t => decide (v2 - cfg.window < t)) := by
    simp [List.filter_cons, hx0f]
  have htllen : tl.length + 1 = L := by simpa using hlen
  have hfl := List.length_filter_le (fun t => decide (v2 - cfg.window < t)) tl
  have hlt3 : (((tl.filter (fun t => decide (v2 - cfg.window < t))).length : Int)
      < cfg.limit) := by
    rw [hlim]
    omega
  unfold RateLimiter.tryAcquire RateLimiter.cleanup
  dsimp only
  rw [hfc, if_pos hlt3]

/-- Witness for `rateLimiter_window_rollover`: `limit = 2`,
`window = 50`, calls at times `0` and `10` succeed, a third call at
`20` fails, and a call at `60` (the oldest timestamp `0` has left the
window) succeeds. -/
theorem rateLimiter_window_rollover_witness :
    (({ limit := 2, window := 50 } : RateLimiter.Cfg).limit = ((2 : Nat) : Int)) ∧
    (RateLimiter.tryMany ({ limit := 2, window := 50 } : RateLimiter.Cfg)
      [0, 10] {}).1 = List.replicate 2 true ∧
    (RateLimiter.tryAcquire ({ limit := 2, window := 50 } : RateLimiter.Cfg) 20
      (RateLimiter.tryMany ({ limit := 2, window := 50 } : RateLimiter.Cfg)
        [0, 10] {}).2).1 = false ∧
    (RateLimiter.tryAcquire ({ limit := 2, window := 50 } : RateLimiter.Cfg) 60
      (RateLimiter.tryAcquire ({ limit := 2, window := 50 } : RateLimiter.Cfg) 20
        (RateLimiter.tryMany ({ limit := 2, window := 50 } : RateLimiter.Cfg)
          [0, 10] {}).2).2).1 = true :=
  ⟨by decide,
    (rateLimiter_window_rollover ({ limit := 2, window := 50 } : RateLimiter.Cfg)
      2 [0, 10] 20 60 0 (by decide) (by decide) (by decide) (by norm_num [List.chain'_cons, List.chain'_singleton])
      (by decide) (by decide) (by decide) (by decide)).1,
    (rateLimiter_window_rollover ({ limit := 2, window := 50 } : RateLimiter.Cfg)
      2 [0, 10] 20 60 0 (by decide) (by decide) (by decide) (by norm_num [List.chain'_cons, List.chain'_singleton])
      (by decide) (by decide) (by decide) (by decide)).2.1,
    (rateLimiter_window_rollover ({ limit := 2, window := 50 } : RateLimiter.Cfg)
      2 [0, 10] 20 60 0 (by decide) (by decide) (by decide) (by norm_num [List.chain'_cons, List.chain'_singleton])
      (by decide) (by decide) (by decide) (by decide)).2.2⟩

/-- Helper: a call always leaves `isPending = true`. -/
theorem Debounce.call_isPending (cfg : Debounce.Cfg) (a : α) (s : Debounce.State α) :
    (Debounce.call cfg a s).isPending = true := by
  unfold Debounce.call
  dsimp only
  split <;> split <;> rfl

/-- Helper: a burst of further calls keeps `isPending = true`. -/
theorem Debounce.callBurst_isPending (cfg : Debounce.Cfg) (as : List α)
    (s : Debounce.State α) (hs : s.isPending = true) :
    (Debounce.callBurst cfg as s).isPending = true := by
  induction as generalizing s with
  | nil => exact hs
  | cons a rest ih => exact ih _ (Debounce.call_isPending cfg a _)

/-- C1: the spec says that under `leading = true` an isolated single call
is executed exactly once — the quiet-period fire only clears flags.  The
code executes the wrapped function a second time at the quiet-period
fire, because the leading execution never clears `lastArgs`, so the
no-re-execute branch of the timer callback is unreachable.  Concrete
failing input: `debounce(fn, 50, {leading: true})`, one call with
argument `5`, then the quiet-period timer fires: the invocation log is
`[5, 5]` (two executions), where after the call alone it was `[5]`. -/
theorem debounce_leading_single_call_double_fires :
    (Debounce.call ({ wait := 50, leading := true } : Debounce.Cfg)
        (5 : Nat) {}).execs = [5] ∧
    (Debounce.quietFire ({ wait := 50, leading := true } : Debounce.Cfg)
        (Debounce.call ({ wait := 50, leading := true } : Debounce.Cfg)
          (5 : Nat) {})).execs = [5, 5] :=
  ⟨rfl, rfl⟩

/-- C10: with `leading = true`, from a quiescent state (`leadingCalled`
still false) a call runs the leading execution immediately, and
`isPending` is `true` from that moment on through every further call of
the burst — it only turns false at a quiet-period fire, `maxWait` fire,
`cancel()` or `flush()`, none of which occur inside the burst. -/
theorem debounce_pending_through_burst (cfg : Debounce.Cfg)
    (s : Debounce.State α) (a : α) (as : List α)
    (hl : cfg.leading = true) (hs : s.leadingCalled = false) :
    (Debounce.call cfg a s).execs = s.execs ++ [a] ∧
    (Debounce.callBurst cfg as (Debounce.call cfg a s)).isPending = true := by
  constructor
  · unfold Debounce.call
    simp [hl, hs]
    split <;> rfl
  · exact Debounce.callBurst_isPending cfg as _ (Debounce.call_isPending cfg a s)

/-- Witness for `debounce_pending_through_burst`: `leading = true`, one
call with argument `1` followed by a burst `[2, 3]`. -/
theorem debounce_pending_through_burst_witness :
    (({ wait := 50, leading := true } : Debounce.Cfg).leading = true) ∧
    (({} : Debounce.State Nat).leadingCalled = false) ∧
    (Debounce.callBurst ({ wait := 50, leading := true } : Debounce.Cfg) [2, 3]
      (Debounce.call ({ wait := 50, leading := true } : Debounce.Cfg)
        (1 : Nat) {})).isPending = true :=
  ⟨rfl, rfl,
    (debounce_pending_through_burst ({ wait := 50, leading := true } : Debounce.Cfg)
      {} 1 [2, 3] rfl rfl).2⟩

/-- C2 counterexample: a leading throttle execution does not clear
`lastArgs` (the spec's `pendingArgs`).  Concrete input: `wait = 100`,
first call at `now = 100` (so `elapsed = 100 ≥ wait`) with argument `5`;
afterwards `lastArgs` is still `some 5`, not `none`. -/
theorem throttle_leading_keeps_pendingArgs :
    ((Throttle.call ({ fn := fun n => n + 1, wait := 100 } : Throttle.Cfg Nat Nat)
        100 5 {}).2).lastArgs ≠ none := by
  decide

/-- C2 (amended): for every call made when the window has fully elapsed
(`elapsed ≥ wait`) with `leading` enabled, the leading execution runs
immediately with the call's arguments, sets `lastExecTime` to `now`,
clears `isPending`, leaves no trailing timer scheduled, and returns the
wrapped function's result synchronously; `lastArgs` is not cleared — it
retains the call's arguments. -/
theorem throttle_leading_executes_immediately (cfg : Throttle.Cfg α β)
    (s : Throttle.State α) (now : Int) (args : α)
    (hl : cfg.leading = true) (h : now - s.lastExecTime ≥ cfg.wait) :
    (Throttle.call cfg now args s).1 = some (cfg.fn args) ∧
    ((Throttle.call cfg now args s).2).lastExecTime = now ∧
    ((Throttle.call cfg now args s).2).isPending = false ∧
    ((Throttle.call cfg now args s).2).timer = none ∧
    ((Throttle.call cfg now args s).2).execs = s.execs ++ [(now, args)] ∧
    ((Throttle.call cfg now args s).2).lastArgs = some args := by
  unfold Throttle.call Throttle.execute
  simp [h, hl]

/-- Witness for `throttle_leading_executes_immediately` at `wait = 100`,
`now = 100`, argument `5` from the initial state. -/
theorem throttle_leading_executes_immediately_witness :
    (({ fn := fun n => n + 1, wait := 100 } : Throttle.Cfg Nat Nat).leading = true) ∧
    ((100 : Int) - ({} : Throttle.State Nat).lastExecTime ≥
      ({ fn := fun n => n + 1, wait := 100 } : Throttle.Cfg Nat Nat).wait) ∧
    (Throttle.call ({ fn := fun n => n + 1, wait := 100 } : Throttle.Cfg Nat Nat)
        100 5 {}).1 = some 6 :=
  ⟨rfl, by decide,
    (throttle_leading_executes_immediately
      ({ fn := fun n => n + 1, wait := 100 } : Throttle.Cfg Nat Nat)
      {} 100 5 rfl (by decide)).1⟩

/-- C7: whenever a call schedules a trailing execution (`trailing`
enabled, no timer scheduled, and no leading execution in this call), the
timer's raw delay is `wait - elapsed` and the effective scheduled delay
is `max 0 (wait - elapsed)`, hence never negative — including when
`elapsed ≥ wait` with `leading` disabled. -/
theorem throttle_trailing_delay_clamped (cfg : Throttle.Cfg α β)
    (s : Throttle.State α) (now : Int) (args : α)
    (ht : cfg.trailing = true) (htimer : s.timer = none)
    (hnl : cfg.leading = false ∨ now - s.lastExecTime < cfg.wait) :
    ((Throttle.call cfg now args s).2).timer =
      some (cfg.wait - (now - s.lastExecTime)) ∧
    Throttle.effectiveDelay (cfg.wait - (now - s.lastExecTime)) =
      max 0 (cfg.wait - (now - s.lastExecTime)) ∧
    0 ≤ Throttle.effectiveDelay (cfg.wait - (now - s.lastExecTime)) := by
  refine ⟨?_, rfl, le_max_left 0 _⟩
  unfold Throttle.call Throttle.scheduleTrailing
  rcases hnl with hnl | hnl
  · by_cases he : now - s.lastExecTime ≥ cfg.wait <;> simp [he, hnl, ht, htimer]
  · simp [not_le.mpr hnl, ht, htimer]

/-- Witness for `throttle_trailing_delay_clamped` at `wait = 50`,
`leading = false`, a call at `now = 80` from the initial state
(`elapsed = 80 ≥ wait`, raw delay `-30`, effective delay `0`). -/
theorem throttle_trailing_delay_clamped_witness :
    (({ fn := fun n => n + 1, wait := 50, leading := false }
        : Throttle.Cfg Nat Nat).trailing = true) ∧
    (({} : Throttle.State Nat).timer = none) ∧
    ((Throttle.call ({ fn := fun n => n + 1, wait := 50, leading := false }
        : Throttle.Cfg Nat Nat) 80 7 {}).2).timer = some (-30) :=
  ⟨rfl, rfl, by
    have h := throttle_trailing_delay_clamped
      ({ fn := fun n => n + 1, wait := 50, leading := false } : Throttle.Cfg Nat Nat)
      {} 80 7 rfl rfl (Or.inl rfl)
    simpa using h.1⟩

/-- C8: when a trailing timer is scheduled and pending args exist,
`flush()` cancels the timer, executes immediately with those args
(logging an execution at flush time) and clears the pending state; a
second `flush()` right after is a strict no-op (state unchanged, nothing
executed). -/
theorem throttle_flush_idempotent (cfg : Throttle.Cfg α β)
    (s : Throttle.State α) (now now2 : Int) (d : Int) (a : α)
    (htimer : s.timer = some d) (ha : s.lastArgs = some a) :
    ((Throttle.flush cfg now s).timer = none ∧
     (Throttle.flush cfg now s).lastArgs = none ∧
     (Throttle.flush cfg now s).isPending = false ∧
     (Throttle.flush cfg now s).execs = s.execs ++ [(now, a)] ∧
     (Throttle.flush cfg now s).lastExecTime = now) ∧
    Throttle.flush cfg now2 (Throttle.flush cfg now s) =
      Throttle.flush cfg now s := by
  have h1 : Throttle.flush cfg now s =
      { s with timer := none, lastArgs := none, isPending := false,
               lastExecTime := now, execs := s.execs ++ [(now, a)] } := by
    unfold Throttle.flush Throttle.execute
    rw [htimer, ha]
  rw [h1]
  refine ⟨⟨rfl, rfl, rfl, rfl, rfl⟩, ?_⟩
  unfold Throttle.flush
  rfl

/-- Witness for `throttle_flush_idempotent`: a state with a scheduled
timer and pending argument `9`. -/
theorem throttle_flush_idempotent_witness :
    (({ timer := some 40, lastArgs := some 9 } : Throttle.State Nat).timer = some 40) ∧
    ((Throttle.flush ({ fn := fun n => n + 1, wait := 100 } : Throttle.Cfg Nat Nat)
        60 { timer := some 40, lastArgs := some 9 }).execs = [(60, 9)]) :=
  ⟨rfl,
    (throttle_flush_idempotent
      ({ fn := fun n => n + 1, wait := 100 } : Throttle.Cfg Nat Nat)
      { timer := some 40, lastArgs := some 9 } 60 61 40 9 rfl rfl).1.2.2.2.1⟩
